import Mathlib

/-! The window loop of `src/main.cpp` (raylib-starter-cpp).


`main.cpp` holds two functions, `gameWindow` (the frame loop) and `main`.
Both only call the external windowing library.  The library is modelled as a
recording surface: every call is appended to a trace, and the things the
platform decides (whether a window could be created, with which status the
process ends when it could not, and what each close-request poll answers) are
taken from an environment.  A failed window creation is fatal: the process
ends inside `InitWindow` and `main` is not resumed.

The `while` loop of `gameWindow` need not terminate, so it is run with a fuel
bound; a run that uses up its fuel yields `Outcome.running` together with the
state reached so far, a run that leaves the loop yields `Outcome.returned`, and
a run ended by a fatal failure of the library yields `Outcome.fatal`.
-/

namespace RaylibStarter

/-! ## Data model -/

/-- The two colour constants of `raylib.h` that the program uses. -/
inductive Color where
  | WHITE
  | BLACK
  deriving DecidableEq, Repr

/-- One call into the windowing library, with its arguments.  A close-request
poll carries the answer the platform gave. -/
inductive Call where
  | InitWindow (width height : Int) (title : String)
  | SetTargetFPS (fps : Int)
  | WindowShouldClose (answer : Bool)
  | BeginDrawing
  | ClearBackground (color : Color)
  | DrawText (text : String) (posX posY fontSize : Int) (color : Color)
  | EndDrawing
  | CloseWindow
  deriving DecidableEq, Repr

/-- What the platform decides: whether a window can be created, the answer to
each close-request poll (`shouldClose i` answers poll number `i + 1`), and the
status with which the process ends when window creation fails, which is
`failStatus + 1` and so never 0. -/
structure Platform where
  windowOk : Bool
  shouldClose : Nat → Bool
  failStatus : Nat

/-- The state threaded through the program: whether the library holds a usable
window, how many close-request polls were made, and the calls made so far in
the order they were made. -/
structure World where
  windowReady : Bool
  polls : Nat
  trace : List Call
  deriving DecidableEq, Repr

/-- The state before `main` starts. -/
def World.initial : World :=
  { windowReady := false, polls := 0, trace := [] }

/-- Result of running code with a fuel bound: the code returned a value, or it
was still running when the fuel was used up, or the process was ended by a
fatal failure inside a library call, with the given exit status. -/
inductive Outcome (α : Type) where
  | returned (value : α)
  | running (world : World)
  | fatal (status : Int) (world : World)
  deriving DecidableEq, Repr

/-! ## The external library, as a recording surface -/

/-- Modelled from the spec: raylib's `InitWindow` is external; it requests a
window of the given size and title.  When the platform can create the window
the call returns (nothing) to the caller.  When it cannot, the call fails
fatally: the process cannot continue and terminates with a non-zero status,
given here as `Except.error` with that status and the state reached. -/
def InitWindow (p : Platform) (width height : Int) (title : String) (w : World) :
    Except (Int × World) World :=
  if p.windowOk then
    Except.ok
      { w with windowReady := true, trace := w.trace ++ [Call.InitWindow width height title] }
  else
    Except.error ((p.failStatus : Int) + 1,
      { w with windowReady := false,
               trace := w.trace ++ [Call.InitWindow width height title] })

/-- Modelled from the spec: raylib's `SetTargetFPS` is external; a frame pacing
hint with no error condition. -/
def SetTargetFPS (fps : Int) (w : World) : World :=
  { w with trace := w.trace ++ [Call.SetTargetFPS fps] }

/-- Modelled from the spec: raylib's `WindowShouldClose` is external; it
reports the platform's close request, which is polled. -/
def WindowShouldClose (p : Platform) (w : World) : Bool × World :=
  (p.shouldClose w.polls,
    { w with polls := w.polls + 1,
             trace := w.trace ++ [Call.WindowShouldClose (p.shouldClose w.polls)] })

/-- Modelled from the spec: raylib's `BeginDrawing` is external; begins a frame. -/
def BeginDrawing (w : World) : World :=
  { w with trace := w.trace ++ [Call.BeginDrawing] }

/-- Modelled from the spec: raylib's `ClearBackground` is external; clears the
frame to a colour. -/
def ClearBackground (color : Color) (w : World) : World :=
  { w with trace := w.trace ++ [Call.ClearBackground color] }

/-- Modelled from the spec: raylib's `DrawText` is external; draws text at a
pixel position with a size and a colour. -/
def DrawText (text : String) (posX posY fontSize : Int) (color : Color) (w : World) : World :=
  { w with trace := w.trace ++ [Call.DrawText text posX posY fontSize color] }

/-- Modelled from the spec: raylib's `EndDrawing` is external; ends the frame. -/
def EndDrawing (w : World) : World :=
  { w with trace := w.trace ++ [Call.EndDrawing] }

/-- Modelled from the spec: raylib's `CloseWindow` is external; releases the
window. -/
def CloseWindow (w : World) : World :=
  { w with windowReady := false, trace := w.trace ++ [Call.CloseWindow] }

/-! ## The program -/

/-- The function `gameWindow` of `main.cpp`: `while (!WindowShouldClose())`
with the four drawing calls as its body.  One unit of fuel is used per
evaluation of the loop condition. -/
def gameWindow (p : Platform) : Nat → World → Outcome World
  | 0, w => Outcome.running w
  | fuel + 1, w =>
    let r := WindowShouldClose p w
    if !r.1 then
      let w1 := BeginDrawing r.2
      let w2 := ClearBackground Color.WHITE w1
      let w3 := DrawText "First Raylib Window" 400 350 30 Color.BLACK w2
      let w4 := EndDrawing w3
      gameWindow p fuel w4
    else
      Outcome.returned r.2

/-- The function `main` of `main.cpp`; the value returned is the exit status
together with the final state.  The statements after `InitWindow` run only
when that call returns; when it fails fatally the process ends there. -/
def main (p : Platform) (fuel : Nat) : Outcome (Int × World) :=
  let windowWidth : Int := 1280
  let windowHeight : Int := 720
  match InitWindow p windowWidth windowHeight "Raylib Window" World.initial with
  | Except.error e => Outcome.fatal e.1 e.2
  | Except.ok w1 =>
    let w2 := SetTargetFPS 60 w1
    match gameWindow p fuel w2 with
    | Outcome.running w => Outcome.running w
    | Outcome.fatal status w => Outcome.fatal status w
    | Outcome.returned w3 =>
      let w4 := CloseWindow w3
      Outcome.returned (0, w4)

/-- The state an outcome of `gameWindow` carries. -/
def Outcome.loopWorld : Outcome World → World
  | Outcome.returned w => w
  | Outcome.running w => w
  | Outcome.fatal _ w => w

/-- The state an outcome of `main` carries. -/
def Outcome.mainWorld : Outcome (Int × World) → World
  | Outcome.returned v => v.2
  | Outcome.running w => w
  | Outcome.fatal _ w => w

/-! ## Vocabulary for stating properties of traces -/

/-- Poll number `k + 1` is the first one answered with true. -/
def FirstTrueAt (p : Platform) (start k : Nat) : Prop :=
  (∀ i, i < k → p.shouldClose (start + i) = false) ∧ p.shouldClose (start + k) = true

/-- The four calls of one frame, as written in the body of the loop. -/
def frameCalls : List Call :=
  [Call.BeginDrawing, Call.ClearBackground Color.WHITE,
   Call.DrawText "First Raylib Window" 400 350 30 Color.BLACK, Call.EndDrawing]

/-- Expected calls of `n` passes through the loop: each pass is a poll answered
false followed by one frame. -/
def loopTrace : Nat → List Call
  | 0 => []
  | n + 1 => Call.WindowShouldClose false :: (frameCalls ++ loopTrace n)

/-- Whether a call is a close-request poll. -/
def Call.isPoll : Call → Bool
  | Call.WindowShouldClose _ => true
  | _ => false

/-- Whether a call is one of the frame operations. -/
def Call.isFrameOp : Call → Bool
  | Call.BeginDrawing => true
  | Call.ClearBackground _ => true
  | Call.DrawText _ _ _ _ _ => true
  | Call.EndDrawing => true
  | _ => false

/-- Number of places of a trace at which the pattern occurs as a run of
consecutive calls. -/
def countOcc (pat : List Call) : List Call → Nat
  | [] => 0
  | c :: cs => (if pat.isPrefixOf (c :: cs) then 1 else 0) + countOcc pat cs

/-- The calls up to the next poll. -/
def untilPoll : List Call → List Call
  | [] => []
  | c :: cs => if c.isPoll then [] else c :: untilPoll cs

/-- The frames of a trace: for each poll answered false, the calls that follow
it up to the next poll. -/
def framesOf : List Call → List (List Call)
  | [] => []
  | Call.WindowShouldClose false :: cs => untilPoll cs :: framesOf cs
  | _ :: cs => framesOf cs

/-- The states of the window named by the specification. -/
inductive Phase where
  | Uninitialized
  | Open
  | Closed
  deriving DecidableEq, Repr

/-- The state machine of the specification, read as an acceptor of calls:
`InitWindow` opens, a poll answered true closes, `CloseWindow` is the action
of the closed state, every other call needs an open window.  There is no way
back into `Open`. -/
def lifecycleStep : Phase → Call → Option Phase
  | Phase.Uninitialized, Call.InitWindow _ _ _ => some Phase.Open
  | Phase.Open, Call.SetTargetFPS _ => some Phase.Open
  | Phase.Open, Call.WindowShouldClose false => some Phase.Open
  | Phase.Open, Call.WindowShouldClose true => some Phase.Closed
  | Phase.Open, Call.BeginDrawing => some Phase.Open
  | Phase.Open, Call.ClearBackground _ => some Phase.Open
  | Phase.Open, Call.DrawText _ _ _ _ _ => some Phase.Open
  | Phase.Open, Call.EndDrawing => some Phase.Open
  | Phase.Closed, Call.CloseWindow => some Phase.Closed
  | _, _ => none

/-- Runs the state machine of the specification over a trace. -/
def lifecycleRun : Phase → List Call → Option Phase
  | ph, [] => some ph
  | ph, c :: cs =>
    match lifecycleStep ph c with
    | none => none
    | some ph1 => lifecycleRun ph1 cs

/-- Size requested by the first `InitWindow` of a trace. -/
def windowSize : List Call → Option (Int × Int)
  | [] => none
  | Call.InitWindow width height _ :: _ => some (width, height)
  | _ :: cs => windowSize cs

/-- Centre of the window of the given size. -/
def windowCentre (size : Int × Int) : Int × Int :=
  (size.1 / 2, size.2 / 2)

/-- The position and font size, `(posX, posY, fontSize)`, of every label drawn
in a trace, in the order drawn. -/
def labelAnchors : List Call → List (Int × Int × Int)
  | [] => []
  | Call.DrawText _ posX posY fontSize _ :: cs => (posX, posY, fontSize) :: labelAnchors cs
  | _ :: cs => labelAnchors cs

/-- Vertical centre of a label's box under the reading that the box is anchored
at its top-left corner `posY` and is as high as the font size. -/
def labelBoxCentreY (posY fontSize : Int) : Int :=
  posY + fontSize / 2

/-- Relation between a call and the next one: a BeginDrawing may only follow a
poll answered false. -/
def BeginAfterPoll (prev next : Call) : Prop :=
  next = Call.BeginDrawing → prev = Call.WindowShouldClose false

/-! ## The loop, run for a known number of frames -/

theorem gameWindow_exit (p : Platform) (n : Nat) :
    ∀ (fuel : Nat) (w : World), FirstTrueAt p w.polls n → n < fuel →
      gameWindow p fuel w = Outcome.returned
        { windowReady := w.windowReady, polls := w.polls + n + 1,
          trace := w.trace ++ loopTrace n ++ [Call.WindowShouldClose true] } := by
  induction n with
  | zero =>
    intro fuel w h hf
    obtain ⟨f, rfl⟩ : ∃ f, fuel = f + 1 := ⟨fuel - 1, by omega⟩
    have ht : p.shouldClose w.polls = true := by simpa using h.2
    simp [gameWindow, WindowShouldClose, ht, loopTrace]
  | succ n ih =>
    intro fuel w h hf
    obtain ⟨f, rfl⟩ : ∃ f, fuel = f + 1 := ⟨fuel - 1, by omega⟩
    have h0 : p.shouldClose w.polls = false := by simpa using h.1 0 (by omega)
    have hnext : FirstTrueAt p (w.polls + 1) n := by
      refine ⟨fun i hi => ?_, ?_⟩
      · have := h.1 (i + 1) (by omega)
        rwa [show w.polls + 1 + i = w.polls + (i + 1) by omega]
      · have := h.2
        rwa [show w.polls + 1 + n = w.polls + (n + 1) by omega]
    simp only [gameWindow, WindowShouldClose, h0, BeginDrawing, ClearBackground, DrawText,
      EndDrawing]
    simp only [Bool.not_false, if_true]
    rw [ih f _ hnext (by omega)]
    simp [loopTrace, frameCalls]
    omega

theorem gameWindow_running (p : Platform) (fuel : Nat) :
    ∀ (w : World), (∀ i, i < fuel → p.shouldClose (w.polls + i) = false) →
      gameWindow p fuel w = Outcome.running
        { windowReady := w.windowReady, polls := w.polls + fuel,
          trace := w.trace ++ loopTrace fuel } := by
  induction fuel with
  | zero => intro w _; simp [gameWindow, loopTrace]
  | succ f ih =>
    intro w h
    have h0 : p.shouldClose w.polls = false := by simpa using h 0 (by omega)
    have hnext : ∀ i, i < f → p.shouldClose (w.polls + 1 + i) = false := by
      intro i hi
      have := h (i + 1) (by omega)
      rwa [show w.polls + 1 + i = w.polls + (i + 1) by omega]
    simp only [gameWindow, WindowShouldClose, h0, BeginDrawing, ClearBackground, DrawText,
      EndDrawing]
    simp only [Bool.not_false, if_true]
    rw [ih _ hnext]
    simp [loopTrace, frameCalls]
    omega

theorem main_fatal (p : Platform) (fuel : Nat) (hfail : p.windowOk = false) :
    main p fuel = Outcome.fatal ((p.failStatus : Int) + 1)
      { windowReady := false, polls := 0,
        trace := [Call.InitWindow 1280 720 "Raylib Window"] } := by
  simp [main, InitWindow, hfail, World.initial]

theorem main_exit (p : Platform) (n fuel : Nat) (hok : p.windowOk = true)
    (h : FirstTrueAt p 0 n) (hf : n < fuel) :
    main p fuel = Outcome.returned (0,
      { windowReady := false, polls := n + 1,
        trace := Call.InitWindow 1280 720 "Raylib Window" :: Call.SetTargetFPS 60 ::
          (loopTrace n ++ [Call.WindowShouldClose true, Call.CloseWindow]) }) := by
  have h2 : FirstTrueAt p (SetTargetFPS 60
      { windowReady := true, polls := 0,
        trace := [Call.InitWindow 1280 720 "Raylib Window"] }).polls n := h
  simp only [main, InitWindow, hok, if_true, World.initial, List.nil_append]
  rw [gameWindow_exit p n fuel _ h2 hf]
  simp [CloseWindow, SetTargetFPS]

theorem main_running (p : Platform) (fuel : Nat) (hok : p.windowOk = true)
    (h : ∀ i, i < fuel → p.shouldClose i = false) :
    main p fuel = Outcome.running
      { windowReady := true, polls := fuel,
        trace := Call.InitWindow 1280 720 "Raylib Window" :: Call.SetTargetFPS 60 ::
          loopTrace fuel } := by
  have h2 : ∀ i, i < fuel → p.shouldClose ((SetTargetFPS 60
      { windowReady := true, polls := 0,
        trace := [Call.InitWindow 1280 720 "Raylib Window"] }).polls + i) = false := by
    intro i hi
    simpa [SetTargetFPS] using h i hi
  simp only [main, InitWindow, hok, if_true, World.initial, List.nil_append]
  rw [gameWindow_running p fuel _ h2]
  simp [SetTargetFPS]

theorem exists_firstTrueAt (p : Platform) (start : Nat)
    (h : ∃ k, p.shouldClose (start + k) = true) : ∃ n, FirstTrueAt p start n := by
  classical
  refine ⟨Nat.find h, fun i hi => ?_, Nat.find_spec h⟩
  have := Nat.find_min h hi
  simpa using this

theorem firstTrueAt_or_all_false (p : Platform) (start fuel : Nat) :
    (∃ n, n < fuel ∧ FirstTrueAt p start n) ∨
      (∀ i, i < fuel → p.shouldClose (start + i) = false) := by
  by_cases h : ∃ i, i < fuel ∧ p.shouldClose (start + i) = true
  · left
    obtain ⟨i, hi, ht⟩ := h
    obtain ⟨n, hn⟩ := exists_firstTrueAt p start ⟨i, ht⟩
    refine ⟨n, ?_, hn⟩
    by_contra hlt
    have := hn.1 i (by omega)
    simp [ht] at this
  · right
    intro i hi
    by_contra hne
    exact h ⟨i, hi, by simpa using hne⟩

theorem countOcc_loopTrace (n : Nat) (rest : List Call) :
    countOcc frameCalls (loopTrace n ++ rest) = n + countOcc frameCalls rest := by
  induction n with
  | zero => simp [loopTrace]
  | succ n ih =>
    simp only [loopTrace, frameCalls, List.cons_append, List.nil_append, countOcc] at ih ⊢
    simp [List.isPrefixOf, ih]
    omega

theorem filter_isFrameOp_loopTrace (n : Nat) :
    ((loopTrace n).filter Call.isFrameOp).length = 4 * n := by
  induction n with
  | zero => simp [loopTrace]
  | succ n ih =>
    simp [loopTrace, frameCalls, Call.isFrameOp, List.filter_cons, ih]
    omega

theorem gameWindow_cases (p : Platform) (fuel : Nat) (w : World) :
    (∃ n, n < fuel ∧ FirstTrueAt p w.polls n ∧
      gameWindow p fuel w = Outcome.returned
        { windowReady := w.windowReady, polls := w.polls + n + 1,
          trace := w.trace ++ loopTrace n ++ [Call.WindowShouldClose true] }) ∨
    ((∀ i, i < fuel → p.shouldClose (w.polls + i) = false) ∧
      gameWindow p fuel w = Outcome.running
        { windowReady := w.windowReady, polls := w.polls + fuel,
          trace := w.trace ++ loopTrace fuel }) := by
  rcases firstTrueAt_or_all_false p w.polls fuel with ⟨n, hn, hft⟩ | hall
  · exact Or.inl ⟨n, hn, hft, gameWindow_exit p n fuel w hft hn⟩
  · exact Or.inr ⟨hall, gameWindow_running p fuel w hall⟩

theorem main_cases (p : Platform) (fuel : Nat) :
    (p.windowOk = false ∧
      main p fuel = Outcome.fatal ((p.failStatus : Int) + 1)
        { windowReady := false, polls := 0,
          trace := [Call.InitWindow 1280 720 "Raylib Window"] }) ∨
    (p.windowOk = true ∧ ∃ n, n < fuel ∧ FirstTrueAt p 0 n ∧
      main p fuel = Outcome.returned (0,
        { windowReady := false, polls := n + 1,
          trace := Call.InitWindow 1280 720 "Raylib Window" :: Call.SetTargetFPS 60 ::
            (loopTrace n ++ [Call.WindowShouldClose true, Call.CloseWindow]) })) ∨
    (p.windowOk = true ∧ (∀ i, i < fuel → p.shouldClose i = false) ∧
      main p fuel = Outcome.running
        { windowReady := true, polls := fuel,
          trace := Call.InitWindow 1280 720 "Raylib Window" :: Call.SetTargetFPS 60 ::
            loopTrace fuel }) := by
  cases hw : p.windowOk with
  | false => exact Or.inl ⟨rfl, main_fatal p fuel hw⟩
  | true =>
    rcases firstTrueAt_or_all_false p 0 fuel with ⟨n, hn, hft⟩ | hall
    · exact Or.inr (Or.inl ⟨rfl, n, hn, hft, main_exit p n fuel hw hft hn⟩)
    · have hall2 : ∀ i, i < fuel → p.shouldClose i = false := by
        intro i hi
        simpa using hall i hi
      exact Or.inr (Or.inr ⟨rfl, hall2, main_running p fuel hw hall2⟩)

theorem firstTrueAt_zero_of (p : Platform) (N : Nat)
    (hfalse : ∀ i, i < N → p.shouldClose i = false) (htrue : p.shouldClose N = true) :
    FirstTrueAt p 0 N := by
  refine ⟨fun i hi => ?_, ?_⟩
  · simpa using hfalse i hi
  · simpa using htrue

theorem mem_loopTrace (n : Nat) (c : Call) (h : c ∈ loopTrace n) :
    c = Call.WindowShouldClose false ∨ c ∈ frameCalls := by
  induction n with
  | zero => simp [loopTrace] at h
  | succ n ih =>
    simp only [loopTrace, List.mem_cons, List.mem_append] at h
    rcases h with h | h | h
    · exact Or.inl h
    · exact Or.inr h
    · exact ih h

theorem closeWindow_not_mem_loopTrace (n : Nat) : Call.CloseWindow ∉ loopTrace n := by
  intro h
  rcases mem_loopTrace n _ h with h | h
  · cases h
  · simp [frameCalls] at h

theorem pollTrue_not_mem_loopTrace (n : Nat) : Call.WindowShouldClose true ∉ loopTrace n := by
  intro h
  rcases mem_loopTrace n _ h with h | h
  · cases h
  · simp [frameCalls] at h

theorem count_closeWindow_loopTrace (n : Nat) : (loopTrace n).count Call.CloseWindow = 0 :=
  List.count_eq_zero.mpr (closeWindow_not_mem_loopTrace n)

theorem getLast?_main_trace (a b : Call) (l : List Call) (x y : Call) :
    (a :: b :: (l ++ [x, y])).getLast? = some y := by
  have h : a :: b :: (l ++ [x, y]) = (a :: b :: (l ++ [x])) ++ [y] := by simp
  rw [h, List.getLast?_concat]

theorem main_returns_of_eventually_true (p : Platform) (hok : p.windowOk = true)
    (h : ∃ k, p.shouldClose k = true) :
    ∃ n, FirstTrueAt p 0 n ∧ ∀ fuel, n + 1 ≤ fuel →
      main p fuel = Outcome.returned (0,
        { windowReady := false, polls := n + 1,
          trace := Call.InitWindow 1280 720 "Raylib Window" :: Call.SetTargetFPS 60 ::
            (loopTrace n ++ [Call.WindowShouldClose true, Call.CloseWindow]) }) := by
  obtain ⟨k, hk⟩ := h
  obtain ⟨n, hn⟩ := exists_firstTrueAt p 0 ⟨k, by simpa using hk⟩
  exact ⟨n, hn, fun fuel hf => main_exit p n fuel hok hn (by omega)⟩

theorem main_returned_trace (p : Platform) (fuel : Nat) (code : Int) (w : World)
    (h : main p fuel = Outcome.returned (code, w)) :
    ∃ n, n < fuel ∧ FirstTrueAt p 0 n ∧ code = 0 ∧ w.polls = n + 1 ∧
      w.trace = Call.InitWindow 1280 720 "Raylib Window" :: Call.SetTargetFPS 60 ::
        (loopTrace n ++ [Call.WindowShouldClose true, Call.CloseWindow]) := by
  rcases main_cases p fuel with ⟨_, hm⟩ | ⟨_, n, hn, hft, hm⟩ | ⟨_, _, hm⟩
  · rw [hm] at h
    cases h
  · rw [hm] at h
    injection h with h
    injection h with h1 h2
    subst h2
    exact ⟨n, hn, hft, h1.symm, rfl, rfl⟩
  · rw [hm] at h
    cases h

theorem main_exit_status (p : Platform) (fuel : Nat) (code : Int) (w : World)
    (h : main p fuel = Outcome.returned (code, w)) : code = 0 := by
  obtain ⟨_, _, _, hc, _⟩ := main_returned_trace p fuel code w h
  exact hc

theorem filter_isPoll_loopTrace (n : Nat) :
    ((loopTrace n).filter Call.isPoll).length = n := by
  induction n with
  | zero => simp [loopTrace]
  | succ n ih => simp [loopTrace, frameCalls, Call.isPoll, List.filter_cons, ih]

theorem lifecycleRun_loopTrace (n : Nat) (rest : List Call) :
    lifecycleRun Phase.Open (loopTrace n ++ rest) = lifecycleRun Phase.Open rest := by
  induction n with
  | zero => simp [loopTrace]
  | succ n ih => simpa [loopTrace, frameCalls, lifecycleRun, lifecycleStep] using ih

theorem chain_loopTrace (n : Nat) (rest : List Call) (hc : List.Chain' BeginAfterPoll rest)
    (hh : rest.head? ≠ some Call.BeginDrawing) :
    List.Chain' BeginAfterPoll (loopTrace n ++ rest) ∧
      (loopTrace n ++ rest).head? ≠ some Call.BeginDrawing := by
  induction n with
  | zero => simpa [loopTrace] using ⟨hc, hh⟩
  | succ n ih =>
    refine ⟨?_, by simp [loopTrace]⟩
    simp only [loopTrace, frameCalls, List.cons_append, List.nil_append]
    refine List.chain'_cons.2 ⟨fun _ => rfl, List.chain'_cons.2 ⟨(fun h => by cases h),
      List.chain'_cons.2 ⟨(fun h => by cases h), List.chain'_cons.2 ⟨(fun h => by cases h),
        List.chain'_cons'.2 ⟨?_, ih.1⟩⟩⟩⟩⟩
    intro y hy hb
    subst hb
    exact absurd hy ih.2

theorem preceded_of_chain (l : List Call) (hc : List.Chain' BeginAfterPoll l)
    (hh : l.head? ≠ some Call.BeginDrawing) (pre post : List Call)
    (h : l = pre ++ Call.BeginDrawing :: post) :
    ∃ pre1, pre = pre1 ++ [Call.WindowShouldClose false] := by
  rcases List.eq_nil_or_concat pre with rfl | ⟨L, b, rfl⟩
  · subst h
    simp at hh
  · subst h
    rw [List.concat_eq_append, List.append_assoc] at hc
    have hb : b = Call.WindowShouldClose false :=
      (List.chain'_append_cons_cons.1 hc).2.1 rfl
    exact ⟨L, by rw [List.concat_eq_append, hb]⟩

theorem main_trace_chain (n : Nat) :
    List.Chain' BeginAfterPoll (Call.InitWindow 1280 720 "Raylib Window" ::
      Call.SetTargetFPS 60 :: (loopTrace n ++ [Call.WindowShouldClose true, Call.CloseWindow])) := by
  have hrest : List.Chain' BeginAfterPoll [Call.WindowShouldClose true, Call.CloseWindow] :=
    List.chain'_cons.2 ⟨(fun h => by cases h), List.chain'_singleton _⟩
  have hl := chain_loopTrace n [Call.WindowShouldClose true, Call.CloseWindow] hrest (by simp)
  refine List.chain'_cons.2 ⟨(fun h => by cases h), List.chain'_cons'.2 ⟨?_, hl.1⟩⟩
  intro y hy hb
  subst hb
  exact absurd hy hl.2

theorem untilPoll_loopTrace (n : Nat) (rest : List Call) (h : untilPoll rest = []) :
    untilPoll (loopTrace n ++ rest) = [] := by
  cases n with
  | zero => simpa [loopTrace] using h
  | succ n => simp [loopTrace, untilPoll, Call.isPoll]

theorem framesOf_loopTrace (n : Nat) (rest : List Call) (h : untilPoll rest = []) :
    framesOf (loopTrace n ++ rest) = List.replicate n frameCalls ++ framesOf rest := by
  induction n with
  | zero => simp [loopTrace]
  | succ n ih =>
    simp only [loopTrace, frameCalls, List.cons_append, List.nil_append, framesOf, untilPoll,
      Call.isPoll, List.replicate_succ] at ih ⊢
    simp [untilPoll_loopTrace n rest h, ih]

theorem count_pollFalse_loopTrace (n : Nat) :
    (loopTrace n).count (Call.WindowShouldClose false) = n := by
  induction n with
  | zero => simp [loopTrace]
  | succ n ih => simp [loopTrace, frameCalls, List.count_cons, ih]

theorem filter_not_isPoll_loopTrace (n : Nat) :
    (loopTrace n).filter (fun c => !c.isPoll) = (List.replicate n frameCalls).flatten := by
  induction n with
  | zero => simp [loopTrace]
  | succ n ih =>
    simp [loopTrace, frameCalls, List.filter_cons, Call.isPoll, List.replicate_succ] at ih ⊢
    exact ih

theorem countOcc_loopTrace_nil (n : Nat) : countOcc frameCalls (loopTrace n) = n := by
  have h := countOcc_loopTrace n []
  simpa [countOcc] using h

theorem labelAnchors_loopTrace (n : Nat) (rest : List Call) :
    labelAnchors (loopTrace n ++ rest) =
      List.replicate n (400, 350, 30) ++ labelAnchors rest := by
  induction n with
  | zero => simp [loopTrace]
  | succ n ih =>
    simpa [loopTrace, frameCalls, labelAnchors, List.replicate_succ] using ih

theorem count_beginDrawing_loopTrace (n : Nat) :
    (loopTrace n).count Call.BeginDrawing = n := by
  induction n with
  | zero => simp [loopTrace]
  | succ n ih => simp [loopTrace, frameCalls, List.count_cons, ih]

/-! ## The claims -/

/-- C1: when the first `N` close-request polls answer false and poll `N + 1`
answers true, `gameWindow` returns after exactly `N` frames: the calls it made
hold exactly `N` occurrences of the sequence BeginDrawing, ClearBackground,
DrawText, EndDrawing and `4 * N` frame operations in all; the same holds for
the whole run of `main` once the window is created.  With `N = 0` no frame is
drawn. -/
theorem gameWindow_performs_exactly_N_frames (p : Platform) (N fuel : Nat)
    (hfalse : ∀ i, i < N → p.shouldClose i = false) (htrue : p.shouldClose N = true)
    (hfuel : N < fuel) :
    (∀ w : World, w.polls = 0 →
      ∃ w1, gameWindow p fuel w = Outcome.returned w1 ∧
        countOcc frameCalls (w1.trace.drop w.trace.length) = N ∧
        ((w1.trace.drop w.trace.length).filter Call.isFrameOp).length = 4 * N) ∧
    (p.windowOk = true → ∃ w1, main p fuel = Outcome.returned (0, w1) ∧
        countOcc frameCalls w1.trace = N ∧
        (w1.trace.filter Call.isFrameOp).length = 4 * N) := by
  have hft := firstTrueAt_zero_of p N hfalse htrue
  constructor
  · intro w hw
    have hft2 : FirstTrueAt p w.polls N := by rw [hw]; exact hft
    refine ⟨_, gameWindow_exit p N fuel w hft2 hfuel, ?_, ?_⟩
    · simp only [List.append_assoc, List.drop_left]
      rw [countOcc_loopTrace]
      simp [countOcc, frameCalls, List.isPrefixOf]
    · simp only [List.append_assoc, List.drop_left]
      simp [List.filter_append, filter_isFrameOp_loopTrace, Call.isFrameOp, List.filter_cons]
  · intro hok
    refine ⟨_, main_exit p N fuel hok hft hfuel, ?_, ?_⟩
    · simp only [countOcc]
      rw [countOcc_loopTrace]
      simp [countOcc, frameCalls, List.isPrefixOf]
    · simp [List.filter_append, filter_isFrameOp_loopTrace, Call.isFrameOp, List.filter_cons]

/-- Witness for C1: two frames, the third poll answers true. -/
theorem gameWindow_performs_exactly_N_frames_witness :
    (∀ i, i < 2 → (Platform.mk true (fun i => decide (2 ≤ i)) 0).shouldClose i = false) ∧
    (Platform.mk true (fun i => decide (2 ≤ i)) 0).shouldClose 2 = true ∧
    (∃ w1, main (Platform.mk true (fun i => decide (2 ≤ i)) 0) 3 = Outcome.returned (0, w1) ∧
        countOcc frameCalls w1.trace = 2 ∧
        (w1.trace.filter Call.isFrameOp).length = 4 * 2) :=
  ⟨by decide, by decide,
    (gameWindow_performs_exactly_N_frames (Platform.mk true (fun i => decide (2 ≤ i)) 0) 2 3
      (by decide) (by decide) (by decide)).2 rfl⟩

/-- C2: when window creation fails, the run of `main` ends, whatever the fuel,
with a non-zero exit status, and the frame loop is never entered: InitWindow
is the only call of the trace, so no close-request poll and no frame operation
is made. -/
theorem main_window_failure_is_fatal (p : Platform) (hfail : p.windowOk = false)
    (fuel : Nat) :
    ∃ status w, main p fuel = Outcome.fatal status w ∧ status ≠ 0 ∧
      w.trace = [Call.InitWindow 1280 720 "Raylib Window"] ∧ w.polls = 0 ∧
      (w.trace.filter Call.isPoll).length = 0 ∧
      (w.trace.filter Call.isFrameOp).length = 0 := by
  refine ⟨_, _, main_fatal p fuel hfail, ?_, rfl, rfl, ?_, ?_⟩
  · omega
  · simp [Call.isPoll]
  · simp [Call.isFrameOp]

/-- Witness for C2: window creation fails on a platform whose close request
would answer true at once. -/
theorem main_window_failure_is_fatal_witness :
    (Platform.mk false (fun _ => true) 0).windowOk = false ∧
    (∃ status w, main (Platform.mk false (fun _ => true) 0) 4 = Outcome.fatal status w ∧
      status ≠ 0 ∧
      w.trace = [Call.InitWindow 1280 720 "Raylib Window"] ∧ w.polls = 0 ∧
      (w.trace.filter Call.isPoll).length = 0 ∧
      (w.trace.filter Call.isFrameOp).length = 0) :=
  ⟨rfl, main_window_failure_is_fatal (Platform.mk false (fun _ => true) 0) rfl 4⟩

/-- C5: when window creation succeeds and the close-request sequence
eventually answers true, `main` returns, and its exit status is 0. -/
theorem main_returns_zero_on_close (p : Platform) (hok : p.windowOk = true)
    (h : ∃ k, p.shouldClose k = true) :
    (∃ fuel0, ∀ fuel, fuel0 ≤ fuel → ∃ w, main p fuel = Outcome.returned (0, w)) ∧
    (∀ fuel code w, main p fuel = Outcome.returned (code, w) → code = 0) := by
  obtain ⟨n, _, hm⟩ := main_returns_of_eventually_true p hok h
  exact ⟨⟨n + 1, fun fuel hf => ⟨_, hm fuel hf⟩⟩,
    fun fuel code w hr => main_exit_status p fuel code w hr⟩

/-- Witness for C5: the window is created and the fourth poll answers true. -/
theorem main_returns_zero_on_close_witness :
    (Platform.mk true (fun i => decide (3 ≤ i)) 0).windowOk = true ∧
    (∃ k, (Platform.mk true (fun i => decide (3 ≤ i)) 0).shouldClose k = true) ∧
    (∃ fuel0, ∀ fuel, fuel0 ≤ fuel →
      ∃ w, main (Platform.mk true (fun i => decide (3 ≤ i)) 0) fuel = Outcome.returned (0, w)) :=
  ⟨rfl, ⟨3, by decide⟩,
    (main_returns_zero_on_close (Platform.mk true (fun i => decide (3 ≤ i)) 0) rfl
      ⟨3, by decide⟩).1⟩

/-- C7: in every run of `main`, whatever the platform answers and however long
the run lasts, the first call of the trace is
InitWindow(1280, 720, "Raylib Window"); when the window is created, that call is
immediately followed by SetTargetFPS(60), and the first close-request poll,
when there is one, comes right after these two calls. -/
theorem main_starts_with_init_and_fps (p : Platform) (fuel : Nat) :
    (main p fuel).mainWorld.trace.head? =
      some (Call.InitWindow 1280 720 "Raylib Window") ∧
    (p.windowOk = true → ∃ rest, (main p fuel).mainWorld.trace =
        Call.InitWindow 1280 720 "Raylib Window" :: Call.SetTargetFPS 60 :: rest ∧
      rest.head? =
        if fuel = 0 then none else some (Call.WindowShouldClose (p.shouldClose 0))) := by
  rcases main_cases p fuel with ⟨hw, hm⟩ | ⟨_, n, hn, hft, hm⟩ | ⟨_, hall, hm⟩
  · refine ⟨by rw [hm]; rfl, fun hok => ?_⟩
    rw [hw] at hok
    cases hok
  · refine ⟨by rw [hm]; rfl, fun _ => ?_⟩
    rw [hm]
    refine ⟨_, rfl, ?_⟩
    rw [if_neg (by omega)]
    cases n with
    | zero =>
      have ht : p.shouldClose 0 = true := by simpa using hft.2
      simp [loopTrace, ht]
    | succ n =>
      have hf : p.shouldClose 0 = false := by simpa using hft.1 0 (by omega)
      simp [loopTrace, hf]
  · refine ⟨by rw [hm]; rfl, fun _ => ?_⟩
    rw [hm]
    refine ⟨_, rfl, ?_⟩
    cases fuel with
    | zero => simp [loopTrace]
    | succ f =>
      have hf : p.shouldClose 0 = false := hall 0 (by omega)
      simp [loopTrace, hf]

/-- Witness for C7: the window is created and the second poll answers true. -/
theorem main_starts_with_init_and_fps_witness :
    (Platform.mk true (fun i => decide (1 ≤ i)) 0).windowOk = true ∧
    (∃ rest, (main (Platform.mk true (fun i => decide (1 ≤ i)) 0) 2).mainWorld.trace =
        Call.InitWindow 1280 720 "Raylib Window" :: Call.SetTargetFPS 60 :: rest ∧
      rest.head? = if 2 = 0 then none else
        some (Call.WindowShouldClose
          ((Platform.mk true (fun i => decide (1 ≤ i)) 0).shouldClose 0))) :=
  ⟨rfl, (main_starts_with_init_and_fps (Platform.mk true (fun i => decide (1 ≤ i)) 0) 2).2 rfl⟩

/-- C3: when the window is created and the close-request sequence eventually
answers true, `main` returns, its trace holds exactly one CloseWindow, and that
call comes right after the (only) poll answered true and is the last call
before `main` returns. -/
theorem main_closes_window_exactly_once (p : Platform) (hok : p.windowOk = true)
    (h : ∃ k, p.shouldClose k = true) :
    ∃ fuel0, ∀ fuel, fuel0 ≤ fuel → ∃ code w,
      main p fuel = Outcome.returned (code, w) ∧
      w.trace.count Call.CloseWindow = 1 ∧
      ∃ pre, w.trace = pre ++ [Call.WindowShouldClose true, Call.CloseWindow] ∧
        Call.WindowShouldClose true ∉ pre ∧ Call.CloseWindow ∉ pre := by
  obtain ⟨n, _, hm⟩ := main_returns_of_eventually_true p hok h
  refine ⟨n + 1, fun fuel hf => ⟨0, _, hm fuel hf, ?_, ?_⟩⟩
  · simp [List.count_cons, List.count_append, count_closeWindow_loopTrace]
  · refine ⟨Call.InitWindow 1280 720 "Raylib Window" :: Call.SetTargetFPS 60 :: loopTrace n,
      by simp, ?_, ?_⟩
    · simp [pollTrue_not_mem_loopTrace]
    · simp [closeWindow_not_mem_loopTrace]

/-- Witness for C3: the window is created and the third poll answers true. -/
theorem main_closes_window_exactly_once_witness :
    (Platform.mk true (fun i => decide (2 ≤ i)) 0).windowOk = true ∧
    (∃ k, (Platform.mk true (fun i => decide (2 ≤ i)) 0).shouldClose k = true) ∧
    (∃ fuel0, ∀ fuel, fuel0 ≤ fuel → ∃ code w,
      main (Platform.mk true (fun i => decide (2 ≤ i)) 0) fuel = Outcome.returned (code, w) ∧
      w.trace.count Call.CloseWindow = 1 ∧
      ∃ pre, w.trace = pre ++ [Call.WindowShouldClose true, Call.CloseWindow] ∧
        Call.WindowShouldClose true ∉ pre ∧ Call.CloseWindow ∉ pre) :=
  ⟨rfl, ⟨2, by decide⟩,
    main_closes_window_exactly_once (Platform.mk true (fun i => decide (2 ≤ i)) 0) rfl
      ⟨2, by decide⟩⟩

/-- C4: in every run of `main` that returns, CloseWindow is the last call of
the trace: whatever follows a CloseWindow in the trace is empty, so no frame
operation and no close-request poll comes after it. -/
theorem closeWindow_is_last_call (p : Platform) (fuel : Nat) (code : Int) (w : World)
    (h : main p fuel = Outcome.returned (code, w)) :
    w.trace.getLast? = some Call.CloseWindow ∧
    ∀ pre post, w.trace = pre ++ Call.CloseWindow :: post → post = [] := by
  obtain ⟨n, _, _, _, _, ht⟩ := main_returned_trace p fuel code w h
  rw [ht]
  refine ⟨getLast?_main_trace _ _ _ _ _, fun pre post hpp => ?_⟩
  have hsplit : Call.InitWindow 1280 720 "Raylib Window" :: Call.SetTargetFPS 60 ::
      (loopTrace n ++ [Call.WindowShouldClose true, Call.CloseWindow]) =
      (Call.InitWindow 1280 720 "Raylib Window" :: Call.SetTargetFPS 60 ::
        (loopTrace n ++ [Call.WindowShouldClose true])) ++ Call.CloseWindow :: [] := by simp
  rw [hsplit] at hpp
  have hx : Call.CloseWindow ∉ Call.InitWindow 1280 720 "Raylib Window" ::
      Call.SetTargetFPS 60 :: (loopTrace n ++ [Call.WindowShouldClose true]) := by
    simp [closeWindow_not_mem_loopTrace]
  exact ((List.append_cons_inj_of_not_mem hx (List.not_mem_nil _)).1 hpp).2.2.symm

/-- Witness for C4: a run of one frame. -/
theorem closeWindow_is_last_call_witness :
    main (Platform.mk true (fun i => decide (1 ≤ i)) 0) 2 = Outcome.returned (0,
      { windowReady := false, polls := 2,
        trace := [Call.InitWindow 1280 720 "Raylib Window", Call.SetTargetFPS 60,
          Call.WindowShouldClose false, Call.BeginDrawing, Call.ClearBackground Color.WHITE,
          Call.DrawText "First Raylib Window" 400 350 30 Color.BLACK, Call.EndDrawing,
          Call.WindowShouldClose true, Call.CloseWindow] }) ∧
    ∀ pre post, [Call.InitWindow 1280 720 "Raylib Window", Call.SetTargetFPS 60,
          Call.WindowShouldClose false, Call.BeginDrawing, Call.ClearBackground Color.WHITE,
          Call.DrawText "First Raylib Window" 400 350 30 Color.BLACK, Call.EndDrawing,
          Call.WindowShouldClose true, Call.CloseWindow] = pre ++ Call.CloseWindow :: post →
      post = [] :=
  ⟨rfl, (closeWindow_is_last_call (Platform.mk true (fun i => decide (1 ≤ i)) 0) 2 0 _ rfl).2⟩

/-- C9: in a run of `main` that returns, the close request is polled once per
frame and once more: the number of polls is the number of frames plus one;
every BeginDrawing comes right after a poll answered false; after the poll
answered true nothing follows but CloseWindow (no frame operation, no poll);
and the trace is a run of the specification's state machine from
Uninitialized through Open to Closed. -/
theorem poll_once_per_frame (p : Platform) (fuel : Nat) (code : Int) (w : World)
    (h : main p fuel = Outcome.returned (code, w)) :
    (w.trace.filter Call.isPoll).length = countOcc frameCalls w.trace + 1 ∧
    w.polls = countOcc frameCalls w.trace + 1 ∧
    (∀ pre post, w.trace = pre ++ Call.BeginDrawing :: post →
      ∃ pre1, pre = pre1 ++ [Call.WindowShouldClose false]) ∧
    (∀ pre post, w.trace = pre ++ Call.WindowShouldClose true :: post →
      post = [Call.CloseWindow]) ∧
    lifecycleRun Phase.Uninitialized w.trace = some Phase.Closed := by
  obtain ⟨n, _, _, _, hp, ht⟩ := main_returned_trace p fuel code w h
  have hocc : countOcc frameCalls w.trace = n := by
    rw [ht]
    simp only [countOcc]
    rw [countOcc_loopTrace]
    simp [countOcc, frameCalls, List.isPrefixOf]
  rw [hocc, hp]
  rw [ht]
  refine ⟨?_, rfl, ?_, ?_, ?_⟩
  · simp [List.filter_cons, List.filter_append, Call.isPoll, filter_isPoll_loopTrace]
  · exact preceded_of_chain _ (main_trace_chain n) (by simp)
  · intro pre post hpp
    have hsplit : Call.InitWindow 1280 720 "Raylib Window" :: Call.SetTargetFPS 60 ::
        (loopTrace n ++ [Call.WindowShouldClose true, Call.CloseWindow]) =
        (Call.InitWindow 1280 720 "Raylib Window" :: Call.SetTargetFPS 60 :: loopTrace n) ++
          Call.WindowShouldClose true :: [Call.CloseWindow] := by simp
    rw [hsplit] at hpp
    have hx : Call.WindowShouldClose true ∉ Call.InitWindow 1280 720 "Raylib Window" ::
        Call.SetTargetFPS 60 :: loopTrace n := by
      simp [pollTrue_not_mem_loopTrace]
    exact ((List.append_cons_inj_of_not_mem hx (by simp)).1 hpp).2.2.symm
  · simp only [lifecycleRun, lifecycleStep]
    rw [lifecycleRun_loopTrace]
    simp [lifecycleRun, lifecycleStep]

/-- Witness for C9: a run of one frame. -/
theorem poll_once_per_frame_witness :
    main (Platform.mk true (fun i => decide (1 ≤ i)) 0) 2 = Outcome.returned (0,
      { windowReady := false, polls := 2,
        trace := [Call.InitWindow 1280 720 "Raylib Window", Call.SetTargetFPS 60,
          Call.WindowShouldClose false, Call.BeginDrawing, Call.ClearBackground Color.WHITE,
          Call.DrawText "First Raylib Window" 400 350 30 Color.BLACK, Call.EndDrawing,
          Call.WindowShouldClose true, Call.CloseWindow] }) ∧
    lifecycleRun Phase.Uninitialized
        [Call.InitWindow 1280 720 "Raylib Window", Call.SetTargetFPS 60,
          Call.WindowShouldClose false, Call.BeginDrawing, Call.ClearBackground Color.WHITE,
          Call.DrawText "First Raylib Window" 400 350 30 Color.BLACK, Call.EndDrawing,
          Call.WindowShouldClose true, Call.CloseWindow] = some Phase.Closed :=
  ⟨rfl, (poll_once_per_frame (Platform.mk true (fun i => decide (1 ≤ i)) 0) 2 0 _ rfl).2.2.2.2⟩

/-- C6: the calls `gameWindow` makes between a poll answered false and the next
poll are, for every frame alike, BeginDrawing, ClearBackground(WHITE),
DrawText("First Raylib Window", 400, 350, 30, BLACK), EndDrawing, in this order;
and apart from the polls `gameWindow` makes no other call than these frames. -/
theorem every_frame_issues_same_four_calls (p : Platform) (fuel : Nat) (w : World) :
    framesOf ((gameWindow p fuel w).loopWorld.trace.drop w.trace.length) =
      List.replicate
        (((gameWindow p fuel w).loopWorld.trace.drop w.trace.length).count
          (Call.WindowShouldClose false))
        [Call.BeginDrawing, Call.ClearBackground Color.WHITE,
          Call.DrawText "First Raylib Window" 400 350 30 Color.BLACK, Call.EndDrawing] ∧
    ((gameWindow p fuel w).loopWorld.trace.drop w.trace.length).filter (fun c => !c.isPoll) =
      (List.replicate
        (((gameWindow p fuel w).loopWorld.trace.drop w.trace.length).count
          (Call.WindowShouldClose false))
        [Call.BeginDrawing, Call.ClearBackground Color.WHITE,
          Call.DrawText "First Raylib Window" 400 350 30 Color.BLACK, Call.EndDrawing]).flatten := by
  rcases gameWindow_cases p fuel w with ⟨n, _, _, hg⟩ | ⟨_, hg⟩
  · rw [hg]
    simp only [Outcome.loopWorld, List.append_assoc, List.drop_left]
    have hc : (loopTrace n ++ [Call.WindowShouldClose true]).count
        (Call.WindowShouldClose false) = n := by
      simp [List.count_append, count_pollFalse_loopTrace, List.count_cons]
    rw [hc]
    constructor
    · rw [framesOf_loopTrace n _ (by simp [untilPoll, Call.isPoll])]
      simp [framesOf, frameCalls]
    · rw [List.filter_append, filter_not_isPoll_loopTrace]
      simp [List.filter_cons, Call.isPoll, frameCalls]
  · rw [hg]
    simp only [Outcome.loopWorld, List.drop_left]
    rw [count_pollFalse_loopTrace]
    constructor
    · have h := framesOf_loopTrace fuel [] (by simp [untilPoll])
      simpa [framesOf, frameCalls] using h
    · rw [filter_not_isPoll_loopTrace]
      simp [frameCalls]

/-- C8: the loop of `gameWindow` returns for some amount of fuel exactly when
the close-request sequence eventually answers true.  When poll `k + 1` is the
first answered true, the loop returns right after that poll, having made
`k + 1` polls and drawn `k` frames.  When the first `k` polls answer false, a
run of at least `k` steps draws at least `k` frames. -/
theorem gameWindow_terminates_iff_close_requested (p : Platform) (w : World) :
    ((∃ fuel w1, gameWindow p fuel w = Outcome.returned w1) ↔
      ∃ k, p.shouldClose (w.polls + k) = true) ∧
    (∀ k, (∀ i, i < k → p.shouldClose (w.polls + i) = false) →
      p.shouldClose (w.polls + k) = true →
      ∀ fuel, k < fuel → ∃ w1, gameWindow p fuel w = Outcome.returned w1 ∧
        w1.polls = w.polls + k + 1 ∧
        w1.trace.getLast? = some (Call.WindowShouldClose true) ∧
        countOcc frameCalls (w1.trace.drop w.trace.length) = k) ∧
    (∀ k, (∀ i, i < k → p.shouldClose (w.polls + i) = false) →
      ∀ fuel, k ≤ fuel →
        k ≤ countOcc frameCalls ((gameWindow p fuel w).loopWorld.trace.drop w.trace.length)) := by
  refine ⟨⟨?_, ?_⟩, ?_, ?_⟩
  · rintro ⟨fuel, w1, hr⟩
    rcases gameWindow_cases p fuel w with ⟨n, _, hft, _⟩ | ⟨_, hg⟩
    · exact ⟨n, hft.2⟩
    · rw [hg] at hr
      cases hr
  · intro h
    obtain ⟨n, hn⟩ := exists_firstTrueAt p w.polls h
    exact ⟨n + 1, _, gameWindow_exit p n (n + 1) w hn (by omega)⟩
  · intro k hfalse htrue fuel hfuel
    refine ⟨_, gameWindow_exit p k fuel w ⟨hfalse, htrue⟩ hfuel, rfl, ?_, ?_⟩
    · simp
    · simp only [List.append_assoc, List.drop_left]
      rw [countOcc_loopTrace]
      simp [countOcc, frameCalls, List.isPrefixOf]
  · intro k hfalse fuel hfuel
    rcases gameWindow_cases p fuel w with ⟨n, _, hft, hg⟩ | ⟨_, hg⟩
    · have hkn : k ≤ n := by
        by_contra hlt
        have hf := hfalse n (by omega)
        rw [hft.2] at hf
        cases hf
      rw [hg]
      simp only [Outcome.loopWorld, List.append_assoc, List.drop_left]
      rw [countOcc_loopTrace]
      omega
    · rw [hg]
      simp only [Outcome.loopWorld, List.drop_left]
      rw [countOcc_loopTrace_nil]
      exact hfuel

/-- Witness for C8: the first two polls answer false, the third answers true. -/
theorem gameWindow_terminates_iff_close_requested_witness :
    (∀ i, i < 2 → (Platform.mk true (fun i => decide (2 ≤ i)) 0).shouldClose
      (World.initial.polls + i) = false) ∧
    (Platform.mk true (fun i => decide (2 ≤ i)) 0).shouldClose (World.initial.polls + 2) = true ∧
    (∃ w1, gameWindow (Platform.mk true (fun i => decide (2 ≤ i)) 0) 3 World.initial =
        Outcome.returned w1 ∧
      w1.polls = World.initial.polls + 2 + 1 ∧
      w1.trace.getLast? = some (Call.WindowShouldClose true) ∧
      countOcc frameCalls (w1.trace.drop World.initial.trace.length) = 2) :=
  ⟨by decide, by decide,
    (gameWindow_terminates_iff_close_requested (Platform.mk true (fun i => decide (2 ≤ i)) 0)
      World.initial).2.1 2 (by decide) (by decide) 3 (by decide)⟩

/-- C10 fails on the code.  In a run of one frame the window is requested as
1280 by 720 and the label is drawn at (400, 350) with font size 30; with the
box as high as the font size its vertical centre is 350 + 30/2 = 365, which is
not the window's 720/2 = 360. -/
theorem label_centre_counterexample :
    windowSize (main (Platform.mk true (fun i => decide (1 ≤ i)) 0) 2).mainWorld.trace =
      some (1280, 720) ∧
    labelAnchors (main (Platform.mk true (fun i => decide (1 ≤ i)) 0) 2).mainWorld.trace =
      [(400, 350, 30)] ∧
    ¬ (labelBoxCentreY 350 30 = (windowCentre (1280, 720)).2) ∧
    ¬ ((350 : Int) + 30 / 2 = 720 / 2) := by
  refine ⟨rfl, rfl, by decide, by decide⟩

/-- C10, amended: the label is drawn at a fixed literal position near the
centre of the window, not at it.  In every run the window is requested as 1280
by 720, whose centre is (640, 360), and every frame draws the label with
top-left anchor (400, 350) and font size 30; with the box as high as the font
size, its vertical centre is 365, five pixels below the window centre. -/
theorem label_drawn_at_fixed_position (p : Platform) (fuel : Nat) :
    windowSize (main p fuel).mainWorld.trace = some (1280, 720) ∧
    labelAnchors (main p fuel).mainWorld.trace =
      List.replicate ((main p fuel).mainWorld.trace.count Call.BeginDrawing)
        (400, 350, 30) ∧
    windowCentre (1280, 720) = (640, 360) ∧
    labelBoxCentreY 350 30 = (windowCentre (1280, 720)).2 + 5 := by
  refine ⟨?_, ?_, rfl, by decide⟩
  · rcases main_cases p fuel with ⟨_, hm⟩ | ⟨_, n, _, _, hm⟩ | ⟨_, _, hm⟩ <;>
      (rw [hm]; rfl)
  · rcases main_cases p fuel with ⟨_, hm⟩ | ⟨_, n, _, _, hm⟩ | ⟨_, _, hm⟩
    · rw [hm]
      rfl
    · rw [hm]
      simp only [Outcome.mainWorld, labelAnchors]
      rw [labelAnchors_loopTrace]
      simp [labelAnchors, List.count_cons, List.count_append, count_beginDrawing_loopTrace]
    · rw [hm]
      simp only [Outcome.mainWorld, labelAnchors]
      have h := labelAnchors_loopTrace fuel []
      simp only [List.append_nil] at h
      rw [h]
      simp [labelAnchors, List.count_cons, count_beginDrawing_loopTrace]

end RaylibStarter
